import Mathlib

/-!
Shallow embedding of the client-side state layer of the Choy_Apparel
storefront: the cart operations and debounced backend synchronizer of
`src/frontend/src/context/CartContext.tsx`, the session manager of the
auth context (`src/unnamed/part_000`), and the fetch wrapper of
`src/frontend/src/services/api.ts`.

JavaScript arrays become `List`, objects become structures, `localStorage`
keys become `Option`-valued fields (a stored value is modelled as its
already-parsed form; a missing key is `none`), JS numbers used as
quantities, prices and timestamps become `Int`, and the network becomes an
explicit oracle passed to each function together with a trace of the calls
issued.  Toast notifications are returned as a list of strings.
-/

/-! ## Cart data model and local mutations (CartContext.tsx, lines 176-228) -/

/-- A product snapshot as carried inside a cart line. -/
structure Product where
  id : String
  name : String
  price : Int
deriving DecidableEq, Repr

/-- A cart line: `type CartItem = { product: Product; quantity: number }`. -/
structure CartItem where
  product : Product
  quantity : Int
deriving DecidableEq, Repr

/-- `addItem(product, quantity = 1)` (CartContext.tsx lines 176-192): if a line
for the product exists, increment its quantity by `q` and toast an update;
otherwise append a new line and toast an addition.  Returns the new items
together with the emitted toasts. -/
def addItem (items : List CartItem) (p : Product) (q : Int) :
    List CartItem × List String :=
  match items.find? (fun it => it.product.id == p.id) with
  | some _ =>
      (items.map (fun it =>
        if it.product.id == p.id then { it with quantity := it.quantity + q } else it),
       ["Updated " ++ p.name ++ " quantity in cart"])
  | none =>
      (items ++ [⟨p, q⟩], ["Added " ++ p.name ++ " to cart"])

/-- `removeItem(productId)` (CartContext.tsx lines 194-202): toast when a line
for the product exists, and filter it out either way. -/
def removeItem (items : List CartItem) (pid : String) : List CartItem × List String :=
  match items.find? (fun it => it.product.id == pid) with
  | some it =>
      (items.filter (fun it2 => !(it2.product.id == pid)),
       ["Removed " ++ it.product.name ++ " from cart"])
  | none =>
      (items.filter (fun it2 => !(it2.product.id == pid)), [])

/-- `updateQuantity(productId, quantity)` (CartContext.tsx lines 204-216):
for `quantity ≤ 0` it delegates to `removeItem`; otherwise it maps over the
lines, setting the matching line's quantity. -/
def updateQuantity (items : List CartItem) (pid : String) (q : Int) :
    List CartItem × List String :=
  if q ≤ 0 then removeItem items pid
  else
    (items.map (fun it => if it.product.id == pid then { it with quantity := q } else it),
     [])

/-- `clearCart()` (CartContext.tsx lines 218-221). -/
def clearCart (_items : List CartItem) : List CartItem × List String :=
  ([], ["Cart cleared"])

/-- One UI-triggered cart mutation. -/
inductive CartOp
  | add (p : Product) (q : Int)
  | remove (pid : String)
  | update (pid : String) (q : Int)
  | clear
deriving DecidableEq, Repr

/-- Apply one mutation to the items (discarding the toast). -/
def applyOp (items : List CartItem) : CartOp → List CartItem
  | .add p q => (addItem items p q).1
  | .remove pid => (removeItem items pid).1
  | .update pid q => (updateQuantity items pid q).1
  | .clear => (clearCart items).1

/-- Apply a sequence of mutations left to right. -/
def applyOps (ops : List CartOp) (items : List CartItem) : List CartItem :=
  ops.foldl applyOp items

/-- The spec's cart invariant: product ids are unique among the lines and
every stored line has quantity at least 1. -/
def cartInvariant (items : List CartItem) : Prop :=
  (items.map (fun it => it.product.id)).Nodup ∧ ∀ it ∈ items, 1 ≤ it.quantity

instance (items : List CartItem) : Decidable (cartInvariant items) := by
  unfold cartInvariant; infer_instance

/-- An `add` op with a positive quantity; the other ops are unconstrained. -/
def opPositive : CartOp → Bool
  | .add _ q => decide (1 ≤ q)
  | _ => true

/-- Sample products used in concrete runs. -/
def prodA : Product := ⟨"A", "Alpha", 10⟩

def prodB : Product := ⟨"B", "Beta", 20⟩

def prodC : Product := ⟨"C", "Gamma", 30⟩

/-! ## Session manager (AuthContext, src/unnamed/part_000) -/

/-- A user record as persisted and exposed by the auth context. -/
structure User where
  id : String
  email : String
  name : String
deriving DecidableEq, Repr

/-- The persisted `authTokens` record `{ access, refresh }`; either half may
be missing in storage. -/
structure Tokens where
  access : Option String
  refresh : Option String
deriving DecidableEq, Repr

/-- Network oracle for the auth endpoints: `profileFor a` is the result of
`authService.getUserProfile()` when the stored access token is `a`
(`none` means the call rejects), and `refreshFor r` is the new access token
returned by `authService.refreshToken(r)` (`none` means the call rejects or
returns no access token). -/
structure AuthServer where
  profileFor : String → Option User
  refreshFor : String → Option String

/-- One network call issued by the session manager. -/
inductive AuthCall
  | getProfile (access : String)
  | refreshReq (refresh : String)
deriving DecidableEq, Repr

/-- Session-manager state: the two localStorage keys plus the in-memory
`user` and `lastRefreshAttempt` React state. -/
structure AuthState where
  storedTokens : Option Tokens
  storedUser : Option User
  user : Option User
  lastRefreshAttempt : Int
deriving DecidableEq, Repr

/-- `clearAuthState()` (part_000 lines 110-115): drops both storage keys and
the in-memory user. -/
def clearAuthState (s : AuthState) : AuthState :=
  { s with storedTokens := none, storedUser := none, user := none }

/-- `attemptTokenRefresh()` (part_000 lines 131-163): read the refresh token
from storage; without one return `false` with no network call.  Otherwise
call the refresh endpoint: on rejection clear all auth state and return
`false`; on success persist the new access token with the old refresh token,
then fetch the profile — a profile failure after a successful refresh is
tolerated (state keeps the new tokens) — and return `true`. -/
def attemptTokenRefresh (srv : AuthServer) (s : AuthState) :
    Bool × AuthState × List AuthCall :=
  match s.storedTokens.bind (fun t => t.refresh) with
  | none => (false, s, [])
  | some r =>
    match srv.refreshFor r with
    | none => (false, clearAuthState s, [AuthCall.refreshReq r])
    | some newAccess =>
      let s1 : AuthState := { s with storedTokens := some ⟨some newAccess, some r⟩ }
      match srv.profileFor newAccess with
      | some u =>
          (true, { s1 with user := some u, storedUser := some u },
           [AuthCall.refreshReq r, AuthCall.getProfile newAccess])
      | none =>
          (true, s1, [AuthCall.refreshReq r, AuthCall.getProfile newAccess])

/-- `refreshToken()` (part_000 lines 165-203): a call within 2000 ms of the
previous attempt short-circuits to the current authentication status with no
network traffic; otherwise record the attempt time, verify an existing
access token by fetching the profile (falling back to `attemptTokenRefresh`
on rejection), or go straight to `attemptTokenRefresh` when no access token
is stored. -/
def refreshToken (srv : AuthServer) (s : AuthState) (now : Int) :
    Bool × AuthState × List AuthCall :=
  if now - s.lastRefreshAttempt < 2000 then
    (s.user.isSome, s, [])
  else
    let s0 : AuthState := { s with lastRefreshAttempt := now }
    match s0.storedTokens.bind (fun t => t.access) with
    | none => attemptTokenRefresh srv s0
    | some a =>
      match srv.profileFor a with
      | some u =>
          (true, { s0 with user := some u, storedUser := some u },
           [AuthCall.getProfile a])
      | none =>
          let r := attemptTokenRefresh srv s0
          (r.1, r.2.1, AuthCall.getProfile a :: r.2.2)

/-- `loadUser()` (part_000 lines 41-108), the session-restore path run once
at mount.  With an access token and a stored user, the stored user is
adopted and then verified by a profile fetch; on verification success the
fresh profile is adopted and persisted.  On verification failure the catch
block (lines 69-78) evaluates `JSON.parse(storedAuthTokens)` — but
`storedAuthTokens` is never declared in this file, so the evaluation raises
a ReferenceError which escapes that catch block and is handled by the
enclosing stored-user-parse catch (lines 79-82), which calls
`clearAuthState()`.  When the access token or the stored user is missing,
the `else if (storedAuthTokens)` test (line 83) raises the same
ReferenceError, which the outermost catch (lines 94-96) handles by logging
only, leaving all state untouched.  In every path no refresh request is ever
issued. -/
def loadUser (srv : AuthServer) (s : AuthState) : AuthState × List AuthCall :=
  match s.storedTokens.bind (fun t => t.access), s.storedUser with
  | some a, some pu =>
    match srv.profileFor a with
    | some u => ({ s with user := some u, storedUser := some u }, [AuthCall.getProfile a])
    | none => (clearAuthState { s with user := some pu }, [AuthCall.getProfile a])
  | _, _ => (s, [])

/-! ## Cart load on auth change (CartContext.tsx, lines 53-93) -/

/-- One element of the backend cart response, `{ product_details, quantity }`
(CartContext.tsx lines 71-74). -/
structure BackendItem where
  product_details : Product
  quantity : Int
deriving DecidableEq, Repr

/-- The mapping applied to the fetched backend cart (lines 71-74). -/
def mapBackendCart (bc : List BackendItem) : List CartItem :=
  bc.map (fun it => ⟨it.product_details, it.quantity⟩)

/-- Cart-synchronizer state outside a sync run: the visible items, the
last-synced snapshot ref, the initial-load ref and the persisted `cart`
storage key. -/
structure CartState where
  items : List CartItem
  lastSynced : List CartItem
  initialLoad : Bool
  storedCart : Option (List CartItem)
deriving DecidableEq, Repr

/-- `loadCart()` (CartContext.tsx lines 53-93).  `backend` is the result of
`ordersService.getUserCart()` (`none` means the fetch rejected); it is only
consulted when `authenticated` holds.  Authenticated with a successful
fetch: adopt the mapped backend cart as items and snapshot, drop the
persisted guest cart, and mark the initial load done.  Authenticated with a
failed fetch: fall back to the locally persisted cart as items and snapshot
(leaving the storage key in place) and mark the initial load done.  Guest
mode: adopt the local cart.  (A corrupt stored value is handled upstream by
dropping the key, so `storedCart` here is the parsed list or `none`.) -/
def loadCart (authenticated : Bool) (backend : Option (List BackendItem))
    (s : CartState) : CartState :=
  let localCart := s.storedCart.getD []
  if authenticated then
    match backend with
    | some bc =>
        { s with items := mapBackendCart bc, lastSynced := mapBackendCart bc,
                 storedCart := none, initialLoad := false }
    | none =>
        { s with items := localCart, lastSynced := localCart, initialLoad := false }
  else
    { s with items := localCart, lastSynced := localCart, initialLoad := false }

/-! ## Backend reconciliation diff (CartContext.tsx, lines 122-168) -/

/-- One remote cart call issued by `syncCartToBackend`. -/
inductive SyncCall
  | removeC (pid : String)
  | addC (pid : String) (q : Int)
  | updateC (pid : String) (q : Int)
deriving DecidableEq, Repr

/-- JS `Map.set` on an association list: overwrite in place when the key is
present, append otherwise. -/
def mapSet (m : List (String × CartItem)) (k : String) (v : CartItem) :
    List (String × CartItem) :=
  if m.any (fun e => e.1 == k) then
    m.map (fun e => if e.1 == k then (k, v) else e)
  else m ++ [(k, v)]

/-- `mapByProductId` (CartContext.tsx lines 128-132): build a `Map` from
product id to cart item, later occurrences overwriting earlier ones. -/
def mapByProductId (arr : List CartItem) : List (String × CartItem) :=
  arr.foldl (fun m it => mapSet m it.product.id it) []

/-- JS `Map.has`. -/
def mapHas (m : List (String × CartItem)) (k : String) : Bool :=
  m.any (fun e => e.1 == k)

/-- JS `Map.get`. -/
def mapGet (m : List (String × CartItem)) (k : String) : Option CartItem :=
  (m.find? (fun e => e.1 == k)).map (fun e => e.2)

/-- The remote calls `syncCartToBackend` issues, in program order
(lines 134-154): first one remove per snapshot entry absent from the current
map, then, walking the current map, one add per entry absent from the
snapshot and one quantity update per entry whose quantity changed. -/
def syncCalls (lastS current : List CartItem) : List SyncCall :=
  let lastMap := mapByProductId lastS
  let currentMap := mapByProductId current
  (lastMap.filter (fun e => !(mapHas currentMap e.1))).map
      (fun e => SyncCall.removeC e.1)
    ++ currentMap.filterMap (fun e =>
        match mapGet lastMap e.1 with
        | none => some (SyncCall.addC e.1 e.2.quantity)
        | some lastIt =>
            if lastIt.quantity == e.2.quantity then none
            else some (SyncCall.updateC e.1 e.2.quantity))

/-- Issue a list of calls sequentially against the success oracle `ok`,
stopping at the first rejection (an await that throws aborts the loop).
Returns the calls actually issued and whether all of them succeeded. -/
def issueCalls (ok : SyncCall → Bool) : List SyncCall → List SyncCall × Bool
  | [] => ([], true)
  | c :: cs =>
    if ok c then
      let r := issueCalls ok cs
      (c :: r.1, r.2)
    else ([c], false)

/-- The body of `syncCartToBackend` (lines 122-168) given the snapshot and
the captured current items: issue the diff calls in order; the
`lastSyncedItemsRef.current = currentItems` assignment (line 157) sits
inside the `try` after the loops, so it runs only when every call
succeeded — a rejected call jumps to the catch and leaves the snapshot
unchanged.  Returns the issued calls and the resulting snapshot. -/
def syncCartToBackend (ok : SyncCall → Bool) (lastS current : List CartItem) :
    List SyncCall × List CartItem :=
  let r := issueCalls ok (syncCalls lastS current)
  (r.1, if r.2 then current else lastS)

/-! ## Debounce / mutual-exclusion event system (CartContext.tsx, lines 110-174)

The sync effect re-runs whenever `items` changes while authenticated and
past the initial load.  Its cleanup clears the pending debounce timeout;
its body returns at once when `syncingRef.current` is set, and otherwise
sets `syncingRef.current = true` (line 120) and schedules
`syncCartToBackend` 500 ms later (line 171) — the flag is taken at schedule
time and is reset only inside the callback's `finally` (line 166).  The
events below are the suspension points of this machinery: a local mutation
(effect cleanup + body), the debounce timer firing (the callback starts and
runs with the items captured by the effect closure), and the callback
completing. -/

/-- The synchronizer's event-loop state while authenticated, after the
initial load: `timer` holds the pending debounce timeout's captured items,
`running` the in-flight callback's captured items. -/
structure SyncSys where
  items : List CartItem
  snapshot : List CartItem
  syncing : Bool
  timer : Option (List CartItem)
  running : Option (List CartItem)
deriving DecidableEq, Repr

/-- One event of the sync machinery. -/
inductive SyncEv
  | mutate (op : CartOp)
  | fire
  | complete
deriving DecidableEq, Repr

/-- One step of the event system; `none` when the event is not enabled
(no pending timer to fire, no run to complete).  `mutate`: apply the local
mutation; the effect cleanup clears any pending timeout, and the body either
returns immediately (flag already set) or takes the flag and schedules a
run capturing the new items.  `fire`: the pending callback starts running.
`complete`: the run finishes — its calls are the diff of the snapshot
against its captured items, the snapshot advances only when all calls
succeeded (see `syncCartToBackend`), and the `finally` releases the flag. -/
def stepSync (ok : SyncCall → Bool) (s : SyncSys) : SyncEv → Option SyncSys
  | .mutate op =>
    let its := applyOp s.items op
    if s.syncing then some { s with items := its, timer := none }
    else some { s with items := its, syncing := true, timer := some its }
  | .fire =>
    match s.timer with
    | some cap => some { s with timer := none, running := some cap }
    | none => none
  | .complete =>
    match s.running with
    | some cap =>
        some { s with running := none, syncing := false,
                      snapshot := (syncCartToBackend ok s.snapshot cap).2 }
    | none => none

/-- Run a sequence of events; `none` as soon as one is not enabled. -/
def stepsSync (ok : SyncCall → Bool) : SyncSys → List SyncEv → Option SyncSys
  | s, [] => some s
  | s, e :: es =>
    match stepSync ok s e with
    | some s' => stepsSync ok s' es
    | none => none

/-! ## Remote gateway (src/frontend/src/services/api.ts) -/

/-- Network oracle for the fetch wrapper: `statusFor e tok` is the HTTP
status the server answers on endpoint `e` with bearer token `tok`, and
`refreshFor r` is the access token minted by `POST /auth/refresh/` for
refresh token `r` (`none`: non-ok response or network failure). -/
structure ApiEnv where
  statusFor : String → Option String → Nat
  refreshFor : String → Option String

/-- `refreshAuthToken()` (api.ts lines 67-96): with no stored refresh token
return `false`; otherwise hit the refresh endpoint and on success store the
new access token beside the old refresh token.  (The catch branch removes
the unused `authToken`/`refreshToken` keys, not `authTokens`, so a failure
leaves the stored pair in place.) -/
def refreshAuthToken (env : ApiEnv) (st : Option Tokens) : Bool × Option Tokens :=
  match st.bind (fun t => t.refresh) with
  | none => (false, st)
  | some r =>
    match env.refreshFor r with
    | some newA => (true, some ⟨some newA, some r⟩)
    | none => (false, st)

/-- `apiRequest(endpoint, method, data, requireAuth)` (api.ts lines 99-247),
fuelled: the result is `none` when the computation does not finish within
`fuel` recursive invocations.  `retryWithNewToken` (line 105) is a local
variable initialised to `false` on every invocation; the "retry" at
line 166 is a fresh recursive call carrying the same four arguments, so the
guard at line 161 is evaluated against a fresh `false` each round.  Path:
when auth is required and no access token is stored, try a refresh and fail
with an unauthorized error if it does not help; then fetch; a 401 answer
with auth required triggers a refresh and, on refresh success, the
recursive retry, and on refresh failure an unauthorized error; any other
status resolves (2xx/204 to success, the rest to a decoded error). -/
def apiRequest (env : ApiEnv) (endpoint : String) (requireAuth : Bool) :
    Nat → Option Tokens → Option (Except String Unit × Option Tokens)
  | 0, _ => none
  | fuel + 1, st =>
    let pre : Except String (Option Tokens) :=
      if requireAuth then
        match st.bind (fun t => t.access) with
        | none =>
          let r := refreshAuthToken env st
          if r.1 then Except.ok r.2
          else Except.error "Unauthorized: Please sign in again"
        | some _ => Except.ok st
      else Except.ok st
    match pre with
    | .error e => some (Except.error e, st)
    | .ok st1 =>
      let status := env.statusFor endpoint (st1.bind (fun t => t.access))
      if status == 401 then
        if requireAuth then
          let r := refreshAuthToken env st1
          if r.1 then apiRequest env endpoint requireAuth fuel r.2
          else some (Except.error "Unauthorized: Please sign in again", r.2)
        else some (Except.error "Unauthorized: Please sign in again", st1)
      else if status == 204 then some (Except.ok (), st1)
      else if 200 ≤ status ∧ status < 300 then some (Except.ok (), st1)
      else some (Except.error "request failed", st1)

/-! ## Concrete fixtures -/

/-- Auth oracle used in concrete runs: access token "fresh" is the only one
whose profile fetch succeeds, refresh token "good" is the only one the
refresh endpoint accepts (minting "fresh"). -/
def authServerExpired : AuthServer :=
  { profileFor := fun a => if a == "fresh" then some ⟨"1", "e@x", "Newer"⟩ else none,
    refreshFor := fun r => if r == "good" then some "fresh" else none }

/-- Restore scenario: persisted credentials with an expired access token and
a valid refresh token, plus a persisted user snapshot. -/
def authStateRestore : AuthState :=
  { storedTokens := some ⟨some "expired", some "good"⟩,
    storedUser := some ⟨"1", "e@x", "Older"⟩, user := none, lastRefreshAttempt := 0 }

/-! ## Claims -/

/-- C5.  On the transition into authenticated mode with the backend fetch
succeeding, the resulting items and the last-synced snapshot both equal the
(mapped) backend cart — the guest cart is replaced, not merged — and the
persisted guest cart key is removed. -/
theorem loadCart_adopts_backend (bc : List BackendItem) (s : CartState) :
    (loadCart true (some bc) s).items = mapBackendCart bc ∧
    (loadCart true (some bc) s).lastSynced = mapBackendCart bc ∧
    (loadCart true (some bc) s).storedCart = none ∧
    (loadCart true (some bc) s).initialLoad = false := by
  simp [loadCart]

/-- C10.  On the transition into authenticated mode with the backend fetch
failing, `loadCart` still resolves: it adopts the persisted guest cart as
the items and as the last-synced snapshot and marks the initial load done. -/
theorem loadCart_backend_failure_falls_back (s : CartState) (g : List CartItem)
    (h : s.storedCart = some g) :
    (loadCart true none s).items = g ∧
    (loadCart true none s).lastSynced = g ∧
    (loadCart true none s).initialLoad = false := by
  simp [loadCart, h]

/-- Witness for C10 at a concrete state. -/
theorem loadCart_backend_failure_falls_back_witness :
    (loadCart true none ⟨[], [], true, some [⟨prodA, 2⟩]⟩).items = [⟨prodA, 2⟩] ∧
    (loadCart true none ⟨[], [], true, some [⟨prodA, 2⟩]⟩).lastSynced = [⟨prodA, 2⟩] ∧
    (loadCart true none ⟨[], [], true, some [⟨prodA, 2⟩]⟩).initialLoad = false :=
  loadCart_backend_failure_falls_back ⟨[], [], true, some [⟨prodA, 2⟩]⟩ [⟨prodA, 2⟩] rfl

/-- C8.  `updateQuantity` with a non-positive quantity is exactly
`removeItem`, items and notifications alike; with a positive quantity it
maps the lines, setting the matching line's quantity to `q`, and when no
line carries the id it leaves the items untouched (no line is created). -/
theorem updateQuantity_remove_or_set (items : List CartItem) (pid : String) (q : Int) :
    (q ≤ 0 → updateQuantity items pid q = removeItem items pid) ∧
    (1 ≤ q →
      (updateQuantity items pid q).1 =
        items.map (fun it =>
          if it.product.id == pid then { it with quantity := q } else it) ∧
      ((∀ it ∈ items, it.product.id ≠ pid) → (updateQuantity items pid q).1 = items)) := by
  constructor
  · intro h
    simp [updateQuantity, h]
  · intro hq
    have hnot : ¬ q ≤ 0 := by omega
    constructor
    · simp [updateQuantity, hnot]
    · intro habsent
      simp only [updateQuantity, if_neg hnot]
      have : ∀ it ∈ items,
          (if it.product.id == pid then { it with quantity := q } else it) = it := by
        intro it hit
        have := habsent it hit
        simp [this]
      rw [List.map_congr_left this]
      exact List.map_id items

/-- Witness for C8: both branches at concrete inputs. -/
theorem updateQuantity_remove_or_set_witness :
    updateQuantity [⟨prodA, 2⟩] "A" 0 = removeItem [⟨prodA, 2⟩] "A" ∧
    (updateQuantity [⟨prodA, 2⟩] "A" 5).1 = [⟨prodA, 5⟩] ∧
    (updateQuantity [⟨prodA, 2⟩] "Z" 5).1 = [⟨prodA, 2⟩] := by
  refine ⟨(updateQuantity_remove_or_set [⟨prodA, 2⟩] "A" 0).1 (by decide), ?_, ?_⟩
  · rw [((updateQuantity_remove_or_set [⟨prodA, 2⟩] "A" 5).2 (by decide)).1]
    decide
  · exact ((updateQuantity_remove_or_set [⟨prodA, 2⟩] "Z" 5).2 (by decide)).2 (by decide)

/-- `attemptTokenRefresh` never touches `lastRefreshAttempt`. -/
lemma attemptTokenRefresh_lastRefreshAttempt (srv : AuthServer) (s : AuthState) :
    (attemptTokenRefresh srv s).2.1.lastRefreshAttempt = s.lastRefreshAttempt := by
  unfold attemptTokenRefresh
  split
  · rfl
  · split
    · simp [clearAuthState]
    · split <;> simp

/-- A `refreshToken` call inside the debounce window is a pure read of the
current authentication status. -/
lemma refreshToken_skip (srv : AuthServer) (s : AuthState) (now : Int)
    (h : now - s.lastRefreshAttempt < 2000) :
    refreshToken srv s now = (s.user.isSome, s, []) := by
  unfold refreshToken
  rw [if_pos h]

/-- A `refreshToken` call that is not debounced away stamps its own time
into `lastRefreshAttempt`. -/
lemma refreshToken_lastRefreshAttempt (srv : AuthServer) (s : AuthState) (now : Int)
    (h : ¬ now - s.lastRefreshAttempt < 2000) :
    (refreshToken srv s now).2.1.lastRefreshAttempt = now := by
  unfold refreshToken
  rw [if_neg h]
  dsimp only
  split
  · rw [attemptTokenRefresh_lastRefreshAttempt]
  · split
    · simp
    · rw [attemptTokenRefresh_lastRefreshAttempt]

/-- C9.  Two `refreshToken()` invocations less than 2 seconds apart coalesce:
assuming the first is a real attempt, the second issues no network call at
all, returns exactly the current authentication status (whether a user is
set), and leaves the state untouched. -/
theorem refreshToken_coalesces (srv : AuthServer) (s : AuthState) (t1 t2 : Int)
    (h1 : 2000 ≤ t1 - s.lastRefreshAttempt) (h2 : t1 ≤ t2) (h3 : t2 - t1 < 2000) :
    refreshToken srv (refreshToken srv s t1).2.1 t2 =
      ((refreshToken srv s t1).2.1.user.isSome, (refreshToken srv s t1).2.1, []) := by
  have hstamp : (refreshToken srv s t1).2.1.lastRefreshAttempt = t1 :=
    refreshToken_lastRefreshAttempt srv s t1 (by omega)
  exact refreshToken_skip srv _ t2 (by rw [hstamp]; omega)

/-- Witness for C9 at concrete times and state. -/
theorem refreshToken_coalesces_witness :
    refreshToken authServerExpired
        (refreshToken authServerExpired authStateRestore 2000).2.1 3500 =
      ((refreshToken authServerExpired authStateRestore 2000).2.1.user.isSome,
       (refreshToken authServerExpired authStateRestore 2000).2.1, []) :=
  refreshToken_coalesces authServerExpired authStateRestore 2000 3500
    (by decide) (by decide) (by decide)

/-- C1.  Session restore with persisted credentials whose access token is
expired but whose refresh token is valid (plus a persisted user): the
profile fetch fails once, and — because the catch block dereferences the
undeclared `storedAuthTokens` — the restore path clears the whole session
instead of attempting a refresh: the final user is `none`, the stored
tokens are gone, and the refresh endpoint is never called (the only network
traffic is the failing profile fetch).  With credentials but no persisted
user, the `else if (storedAuthTokens)` test itself raises, so no refresh is
attempted there either. -/
theorem loadUser_expired_access_clears_session :
    (loadUser authServerExpired authStateRestore).1.user = none ∧
    (loadUser authServerExpired authStateRestore).1.storedTokens = none ∧
    (loadUser authServerExpired authStateRestore).2 = [AuthCall.getProfile "expired"] ∧
    (loadUser authServerExpired
        { authStateRestore with storedUser := none }).2 = [] := by
  refine ⟨?_, ?_, ?_, ?_⟩ <;> rfl

/-- C7 counterexample.  `addItem` has no positivity guard: one `addItem`
call with quantity 0 starting from the empty cart stores a line with
quantity 0, so the invariant does not hold for arbitrary integer
quantities. -/
theorem cartInvariant_fails_for_zero_add :
    ¬ cartInvariant (applyOps [CartOp.add prodA 0] []) := by
  decide

/-- A map that only rewrites quantities leaves the id list unchanged. -/
lemma ids_map_of_product_preserved (items : List CartItem) (f : CartItem → CartItem)
    (hf : ∀ it, (f it).product = it.product) :
    (items.map f).map (fun it => it.product.id) = items.map (fun it => it.product.id) := by
  rw [List.map_map]
  apply List.map_congr_left
  intro it _
  simp [Function.comp, hf it]

/-- `addItem` with a positive quantity preserves the cart invariant. -/
lemma addItem_cartInvariant (items : List CartItem) (p : Product) (q : Int)
    (hq : 1 ≤ q) (h : cartInvariant items) : cartInvariant (addItem items p q).1 := by
  obtain ⟨hnd, hpos⟩ := h
  unfold addItem
  cases hf : items.find? (fun it => it.product.id == p.id) with
  | some it0 =>
    refine ⟨?_, ?_⟩
    · rw [ids_map_of_product_preserved]
      · exact hnd
      · intro it
        by_cases hid : (it.product.id == p.id) = true <;> simp [hid]
    · intro it' hmem
      rw [List.mem_map] at hmem
      obtain ⟨it, hit, rfl⟩ := hmem
      by_cases hid : (it.product.id == p.id) = true
      · have := hpos it hit
        simp only [hid, if_true]
        omega
      · simp only [hid, if_false]
        exact hpos it hit
  | none =>
    have habsent : p.id ∉ items.map (fun it => it.product.id) := by
      intro hmem
      rw [List.mem_map] at hmem
      obtain ⟨it, hit, hid⟩ := hmem
      have := List.find?_eq_none.mp hf it hit
      simp [hid] at this
    refine ⟨?_, ?_⟩
    · rw [List.map_append]
      rw [List.nodup_append]
      refine ⟨hnd, List.nodup_singleton _, ?_⟩
      intro a ha hb
      simp only [List.map_cons, List.map_nil, List.mem_singleton] at hb
      subst hb
      exact habsent ha
    · intro it' hmem
      rcases List.mem_append.mp hmem with hmem | hmem
      · exact hpos it' hmem
      · simp only [List.mem_singleton] at hmem
        subst hmem
        exact hq

/-- Both branches of `removeItem` produce the same filtered items. -/
lemma removeItem_fst (items : List CartItem) (pid : String) :
    (removeItem items pid).1 = items.filter (fun it2 => !(it2.product.id == pid)) := by
  unfold removeItem
  split <;> rfl

/-- `removeItem` preserves the cart invariant. -/
lemma removeItem_cartInvariant (items : List CartItem) (pid : String)
    (h : cartInvariant items) : cartInvariant (removeItem items pid).1 := by
  obtain ⟨hnd, hpos⟩ := h
  rw [removeItem_fst]
  refine ⟨?_, ?_⟩
  · exact hnd.sublist ((List.filter_sublist items).map (fun it => it.product.id))
  · intro it hmem
    exact hpos it (List.mem_of_mem_filter hmem)

/-- `updateQuantity` preserves the cart invariant for every integer
quantity (non-positive quantities delegate to `removeItem`). -/
lemma updateQuantity_cartInvariant (items : List CartItem) (pid : String) (q : Int)
    (h : cartInvariant items) : cartInvariant (updateQuantity items pid q).1 := by
  unfold updateQuantity
  split
  · exact removeItem_cartInvariant items pid h
  · next hq =>
    obtain ⟨hnd, hpos⟩ := h
    refine ⟨?_, ?_⟩
    · rw [ids_map_of_product_preserved]
      · exact hnd
      · intro it
        by_cases hid : (it.product.id == pid) = true <;> simp [hid]
    · intro it' hmem
      rw [List.mem_map] at hmem
      obtain ⟨it, hit, rfl⟩ := hmem
      by_cases hid : (it.product.id == pid) = true
      · simp only [hid, if_true]
        omega
      · simp only [hid, if_false]
        exact hpos it hit

/-- One positive-add mutation preserves the cart invariant. -/
lemma applyOp_cartInvariant (items : List CartItem) (op : CartOp)
    (hop : opPositive op = true) (h : cartInvariant items) :
    cartInvariant (applyOp items op) := by
  cases op with
  | add p q =>
    exact addItem_cartInvariant items p q (of_decide_eq_true hop) h
  | remove pid => exact removeItem_cartInvariant items pid h
  | update pid q => exact updateQuantity_cartInvariant items pid q h
  | clear => exact ⟨List.nodup_nil, by intro it h; cases h⟩

/-- The cart invariant is inductive along any positive-add mutation
sequence. -/
lemma applyOps_cartInvariant (ops : List CartOp) :
    ∀ items : List CartItem, cartInvariant items →
      (∀ op ∈ ops, opPositive op = true) → cartInvariant (applyOps ops items) := by
  induction ops with
  | nil =>
    intro items h _
    simpa [applyOps] using h
  | cons op ops ih =>
    intro items h hpos
    have hstep : applyOps (op :: ops) items = applyOps ops (applyOp items op) := by
      simp [applyOps]
    rw [hstep]
    exact ih (applyOp items op)
      (applyOp_cartInvariant items op (hpos op (List.mem_cons_self op ops)) h)
      (fun o ho => hpos o (List.mem_cons_of_mem op ho))

/-- C7 amended.  For every mutation sequence from the empty cart in which
each `addItem` call carries a positive quantity (as the UI's calls do, the
default being 1), the cart invariant holds: product ids are unique and
every stored line has quantity at least 1.  (The unamended claim, allowing
arbitrary integer quantities in `addItem`, fails:
see the counterexample.) -/
theorem cartInvariant_holds_for_positive_adds (ops : List CartOp)
    (h : ∀ op ∈ ops, opPositive op = true) :
    cartInvariant (applyOps ops []) :=
  applyOps_cartInvariant ops [] ⟨List.nodup_nil, by intro it h; cases h⟩ h

/-- Mutation sequence exercising every operation with positive adds. -/
def opsSample : List CartOp :=
  [CartOp.add prodA 2, CartOp.add prodA 3, CartOp.add prodB 1,
   CartOp.update "A" 5, CartOp.remove "B", CartOp.clear, CartOp.add prodC 4]

/-- Witness for the amended C7 on a concrete mutation sequence. -/
theorem cartInvariant_holds_for_positive_adds_witness :
    (∀ op ∈ opsSample, opPositive op = true) ∧ cartInvariant (applyOps opsSample []) :=
  ⟨by decide, cartInvariant_holds_for_positive_adds opsSample (by decide)⟩

/-- A server that answers 401 on every request while its refresh endpoint
keeps minting fresh access tokens. -/
def env401 : ApiEnv :=
  { statusFor := fun _ _ => 401, refreshFor := fun _ => some "minted" }

/-- Against `env401`, an authenticated `apiRequest` burns all its fuel:
each round performs a successful refresh and retries via a fresh recursive
invocation whose `retryWithNewToken` is `false` again. -/
lemma apiRequest_env401_spins (endpoint : String) :
    ∀ (fuel : Nat) (st : Option Tokens), (st.bind (fun t => t.refresh)).isSome →
      apiRequest env401 endpoint true fuel st = none := by
  intro fuel
  induction fuel with
  | zero => intro st _; rfl
  | succ n ih =>
    intro st h
    obtain ⟨r, hr⟩ := Option.isSome_iff_exists.mp h
    show apiRequest env401 endpoint true (n + 1) st = none
    unfold apiRequest
    cases ha : st.bind (fun t => t.access) with
    | none =>
      simp only [ha, refreshAuthToken, hr, env401, if_true]
      exact ih _ (by simp)
    | some a =>
      simp only [ha, refreshAuthToken, hr, env401, if_true]
      exact ih _ (by simp)

/-- C6.  The gateway's one-refresh-one-retry guard does not hold: with a
server that answers every authenticated request with 401 while the refresh
endpoint keeps succeeding, `apiRequest` never terminates — for every fuel
bound the computation is still unfinished, issuing a fresh refresh-and-retry
round per invocation instead of surfacing the failure after one retry. -/
theorem apiRequest_nonterminating_on_persistent_401 (fuel : Nat) :
    apiRequest env401 "cart/" true fuel (some ⟨some "a", some "r"⟩) = none :=
  apiRequest_env401_spins "cart/" fuel (some ⟨some "a", some "r"⟩) rfl

/-- Post-login synchronizer state: empty backend cart adopted, initial load
done, no pending timer, flag clear. -/
def syncStart : SyncSys := ⟨[], [], false, none, none⟩

/-- Two local mutations inside one 500 ms debounce window: no `fire` event
separates them. -/
def rapidEdits : List SyncEv :=
  [SyncEv.mutate (CartOp.add prodA 1), SyncEv.mutate (CartOp.add prodB 1)]

/-- The state after the two rapid mutations: the second effect run cleared
the pending timeout while `syncingRef` was already set, so no timer is
pending, nothing is running, and the flag — reset only inside the cancelled
callback — is still set. -/
def wedgedState : SyncSys := ⟨[⟨prodA, 1⟩, ⟨prodB, 1⟩], [], true, none, none⟩

/-- The wedged configuration: flag set, no pending timer, no run in flight,
snapshot still the empty post-login cart. -/
def syncWedged (s : SyncSys) : Prop :=
  s.syncing = true ∧ s.timer = none ∧ s.running = none ∧ s.snapshot = []

/-- Every enabled event from a wedged configuration leads to a wedged
configuration, and neither `fire` nor `complete` is enabled. -/
lemma stepSync_wedged (ok : SyncCall → Bool) (s : SyncSys) (e : SyncEv) (s' : SyncSys)
    (hw : syncWedged s) (h : stepSync ok s e = some s') :
    syncWedged s' ∧ e ≠ SyncEv.fire ∧ e ≠ SyncEv.complete := by
  obtain ⟨h1, h2, h3, h4⟩ := hw
  cases e with
  | mutate op =>
    refine ⟨?_, by simp, by simp⟩
    simp only [stepSync, h1, if_true] at h
    cases h
    exact ⟨rfl, rfl, h3, h4⟩
  | fire =>
    rw [stepSync, h2] at h
    cases h
  | complete =>
    rw [stepSync, h3] at h
    cases h

/-- Wedging is permanent along every enabled event sequence, which in
particular never contains a timer firing or a run completing. -/
lemma stepsSync_wedged (ok : SyncCall → Bool) :
    ∀ (evs : List SyncEv) (s s' : SyncSys), syncWedged s →
      stepsSync ok s evs = some s' →
      syncWedged s' ∧ SyncEv.fire ∉ evs ∧ SyncEv.complete ∉ evs := by
  intro evs
  induction evs with
  | nil =>
    intro s s' hw h
    cases h
    exact ⟨hw, by simp, by simp⟩
  | cons e es ih =>
    intro s s' hw h
    rw [stepsSync] at h
    cases hstep : stepSync ok s e with
    | none => rw [hstep] at h; cases h
    | some s1 =>
      rw [hstep] at h
      obtain ⟨hw1, hne1, hne2⟩ := stepSync_wedged ok s e s1 hw hstep
      obtain ⟨hw', hf, hc⟩ := ih s1 s' hw1 h
      refine ⟨hw', ?_, ?_⟩
      · intro hmem
        rcases List.mem_cons.mp hmem with hmem | hmem
        · exact hne1 hmem.symm
        · exact hf hmem
      · intro hmem
        rcases List.mem_cons.mp hmem with hmem | hmem
        · exact hne2 hmem.symm
        · exact hc hmem

/-- C2.  Local edits ARE lost by the synchronizer.  Two mutations within one
debounce window (no `fire` in between) drive the machinery from the clean
post-login state into `wedgedState`: the second effect run cancels the
pending timeout while the mutual-exclusion flag — taken at schedule time,
released only inside the cancelled callback — stays set.  The cart then
differs from the last-synced snapshot, yet along every enabled continuation
the flag stays set, no timer is ever pending again, and no sync run ever
starts or completes: the backend snapshot stays empty forever. -/
theorem sync_drops_edits_after_rapid_mutations :
    (∀ ok : SyncCall → Bool, stepsSync ok syncStart rapidEdits = some wedgedState) ∧
    wedgedState.items ≠ wedgedState.snapshot ∧
    (∀ (ok : SyncCall → Bool) (evs : List SyncEv) (s' : SyncSys),
      stepsSync ok wedgedState evs = some s' →
      s'.syncing = true ∧ s'.timer = none ∧ s'.running = none ∧ s'.snapshot = [] ∧
      SyncEv.fire ∉ evs ∧ SyncEv.complete ∉ evs) := by
  refine ⟨fun ok => rfl, by decide, ?_⟩
  intro ok evs s' h
  obtain ⟨⟨h1, h2, h3, h4⟩, hf, hc⟩ :=
    stepsSync_wedged ok evs wedgedState s' ⟨rfl, rfl, rfl, rfl⟩ h
  exact ⟨h1, h2, h3, h4, hf, hc⟩

/-- Witness for C2: a further mutation from the wedged state still leaves
the machinery wedged. -/
theorem sync_drops_edits_after_rapid_mutations_witness :
    (stepsSync (fun _ => true) wedgedState [SyncEv.mutate CartOp.clear] =
      some ⟨[], [], true, none, none⟩) ∧
    (⟨[], [], true, none, none⟩ : SyncSys).syncing = true ∧
    SyncEv.fire ∉ [SyncEv.mutate CartOp.clear] := by
  refine ⟨by decide, ?_, ?_⟩
  · exact (sync_drops_edits_after_rapid_mutations.2.2 (fun _ => true)
      [SyncEv.mutate CartOp.clear] ⟨[], [], true, none, none⟩ (by decide)).1
  · exact (sync_drops_edits_after_rapid_mutations.2.2 (fun _ => true)
      [SyncEv.mutate CartOp.clear] ⟨[], [], true, none, none⟩ (by decide)).2.2.2.2.1

/-- C3 counterexample.  A reconciliation run whose single remote call fails:
the run completes (the call was issued), yet the last-synced snapshot is NOT
replaced by the current items — the `lastSyncedItemsRef` assignment sits
after the calls inside the `try`, so the rejected call skips it and the
stale snapshot survives. -/
theorem syncCartToBackend_failure_keeps_stale_snapshot :
    (syncCartToBackend (fun _ => false) [⟨prodA, 1⟩] []).1 = [SyncCall.removeC "A"] ∧
    (syncCartToBackend (fun _ => false) [⟨prodA, 1⟩] []).2 = [⟨prodA, 1⟩] ∧
    (syncCartToBackend (fun _ => false) [⟨prodA, 1⟩] []).2 ≠ [] := by
  refine ⟨by decide, by decide, by decide⟩

/-- `issueCalls` reports success exactly when every call in the list is
accepted. -/
lemma issueCalls_snd_eq_true (ok : SyncCall → Bool) :
    ∀ l : List SyncCall, (issueCalls ok l).2 = true ↔ ∀ c ∈ l, ok c = true := by
  intro l
  induction l with
  | nil => simp [issueCalls]
  | cons c cs ih =>
    cases hc : ok c with
    | true => simp [issueCalls, hc, ih]
    | false =>
      simp only [issueCalls, hc]
      constructor
      · intro h
        exact absurd h (by simp)
      · intro h
        exact absurd (h c (List.mem_cons_self c cs)) (by simp [hc])

/-- C3 amended.  The snapshot is replaced by the current items only when
every remote call of the run succeeds; a run in which some call fails aborts
at the first rejection and leaves the snapshot unchanged, so those deltas
ARE re-issued on the next run. -/
theorem syncCartToBackend_snapshot_update (ok : SyncCall → Bool)
    (lastS cur : List CartItem) :
    ((∀ c ∈ syncCalls lastS cur, ok c = true) →
        (syncCartToBackend ok lastS cur).2 = cur) ∧
    ((∃ c ∈ syncCalls lastS cur, ok c = false) →
        (syncCartToBackend ok lastS cur).2 = lastS) := by
  constructor
  · intro h
    unfold syncCartToBackend
    dsimp only
    rw [if_pos ((issueCalls_snd_eq_true ok (syncCalls lastS cur)).mpr h)]
  · intro h
    unfold syncCartToBackend
    dsimp only
    rw [if_neg]
    intro hall
    obtain ⟨c, hmem, hc⟩ := h
    have := (issueCalls_snd_eq_true ok (syncCalls lastS cur)).mp hall c hmem
    rw [this] at hc
    cases hc

/-- Witness for the amended C3: both branches at concrete runs. -/
theorem syncCartToBackend_snapshot_update_witness :
    (syncCartToBackend (fun _ => true) [⟨prodA, 1⟩] []).2 = [] ∧
    (syncCartToBackend (fun _ => false) [⟨prodA, 1⟩, ⟨prodB, 2⟩] []).2 =
      [⟨prodA, 1⟩, ⟨prodB, 2⟩] := by
  constructor
  · exact (syncCartToBackend_snapshot_update (fun _ => true) [⟨prodA, 1⟩] []).1
      (by decide)
  · exact (syncCartToBackend_snapshot_update (fun _ => false)
      [⟨prodA, 1⟩, ⟨prodB, 2⟩] []).2 ⟨SyncCall.removeC "A", by decide, rfl⟩

/-- The product ids of a line list, in order. -/
def idsOf (l : List CartItem) : List String := l.map (fun it => it.product.id)

/-- The quantity the list holds for a product id (0 when absent); with
unique ids this is the quantity of the unique line. -/
def qtyOf (l : List CartItem) (pid : String) : Int :=
  ((l.find? (fun it => it.product.id == pid)).map (fun it => it.quantity)).getD 0

/-- Whether a remote cart call names the given product id. -/
def mentions (pid : String) : SyncCall → Bool
  | .removeC p => p == pid
  | .addC p _ => p == pid
  | .updateC p _ => p == pid

@[simp] lemma idsOf_nil : idsOf [] = [] := rfl

@[simp] lemma idsOf_cons (x : CartItem) (l : List CartItem) :
    idsOf (x :: l) = x.product.id :: idsOf l := rfl

lemma mem_idsOf {l : List CartItem} {pid : String} :
    pid ∈ idsOf l ↔ ∃ x ∈ l, x.product.id = pid := by
  unfold idsOf
  exact List.mem_map

lemma find?_id_eq_none {l : List CartItem} {pid : String} (h : pid ∉ idsOf l) :
    l.find? (fun it => it.product.id == pid) = none := by
  rw [List.find?_eq_none]
  intro x hx hbeq
  exact h (mem_idsOf.mpr ⟨x, hx, by simpa using hbeq⟩)

lemma find?_id_eq_some {l : List CartItem} {pid : String} {x : CartItem}
    (h : (idsOf l).Nodup) (hx : x ∈ l) (hid : x.product.id = pid) :
    l.find? (fun it => it.product.id == pid) = some x := by
  induction l with
  | nil => cases hx
  | cons y ys ih =>
    simp only [idsOf_cons, List.nodup_cons] at h
    rcases List.mem_cons.mp hx with rfl | hmem
    · exact List.find?_cons_of_pos _ (by simpa using hid)
    · have hy : ¬ (y.product.id == pid) = true := by
        intro hbeq
        have hyid : y.product.id = pid := by simpa using hbeq
        exact h.1 (by rw [hyid]; exact mem_idsOf.mpr ⟨x, hmem, hid⟩)
      have hy2 : ¬ ((fun it : CartItem => it.product.id == pid) y = true) := hy
      rw [List.find?_cons_of_neg ys hy2]
      exact ih h.2 hmem

lemma qtyOf_eq_of_mem {l : List CartItem} {pid : String} {x : CartItem}
    (h : (idsOf l).Nodup) (hx : x ∈ l) (hid : x.product.id = pid) :
    qtyOf l pid = x.quantity := by
  rw [qtyOf, find?_id_eq_some h hx hid]
  rfl

lemma countP_id_one {l : List CartItem} {pid : String}
    (h : (idsOf l).Nodup) (hmem : pid ∈ idsOf l) :
    l.countP (fun it => it.product.id == pid) = 1 := by
  have hrw : l.countP (fun it => it.product.id == pid)
      = (idsOf l).countP (fun s => s == pid) := by
    rw [idsOf, List.countP_map]
    rfl
  rw [hrw, ← List.count_eq_countP]
  exact List.count_eq_one_of_mem h hmem

lemma countP_id_zero {l : List CartItem} {pid : String} (hmem : pid ∉ idsOf l) :
    l.countP (fun it => it.product.id == pid) = 0 := by
  rw [List.countP_eq_zero]
  intro x hx hbeq
  exact hmem (mem_idsOf.mpr ⟨x, hx, by simpa using hbeq⟩)

/-- Folding `mapSet` over lines with pairwise-distinct ids only ever appends:
the JS `Map` ends up as the association list of the array. -/
lemma foldl_mapSet_eq (arr : List CartItem) :
    ∀ acc : List (String × CartItem), (idsOf arr).Nodup →
      (∀ it ∈ arr, acc.any (fun e => e.1 == it.product.id) = false) →
      arr.foldl (fun m it => mapSet m it.product.id it) acc
        = acc ++ arr.map (fun it => (it.product.id, it)) := by
  induction arr with
  | nil => intro acc _ _; simp
  | cons it rest ih =>
    intro acc hnd hdisj
    simp only [idsOf_cons, List.nodup_cons] at hnd
    have hfresh : acc.any (fun e => e.1 == it.product.id) = false :=
      hdisj it (List.mem_cons_self it rest)
    have hset : mapSet acc it.product.id it = acc ++ [(it.product.id, it)] := by
      unfold mapSet
      rw [hfresh]
      simp
    rw [List.foldl_cons, hset,
        ih (acc ++ [(it.product.id, it)]) hnd.2 ?_]
    · simp
    · intro it2 hit2
      rw [List.any_append]
      have h1 : acc.any (fun e => e.1 == it2.product.id) = false :=
        hdisj it2 (List.mem_cons_of_mem it hit2)
      have h2 : (it.product.id == it2.product.id) = false := by
        rw [beq_eq_false_iff_ne]
        intro heq
        exact hnd.1 (heq ▸ mem_idsOf.mpr ⟨it2, hit2, rfl⟩)
      simp [h1, h2]

/-- Under unique ids, `mapByProductId` is the association list of the
array. -/
lemma mapByProductId_eq_of_nodup (arr : List CartItem) (h : (idsOf arr).Nodup) :
    mapByProductId arr = arr.map (fun it => (it.product.id, it)) := by
  unfold mapByProductId
  rw [foldl_mapSet_eq arr [] h (by intro it _; rfl)]
  rfl

/-- The diff-call predicate on one current line: absent from the snapshot
means an add, a changed quantity means an update, otherwise nothing. -/
def addOrUpdate (lastS : List CartItem) (it : CartItem) : Option SyncCall :=
  match lastS.find? (fun it2 => it2.product.id == it.product.id) with
  | none => some (SyncCall.addC it.product.id it.quantity)
  | some l0 =>
      if l0.quantity == it.quantity then none
      else some (SyncCall.updateC it.product.id it.quantity)

/-- `mapHas` on the association list of a line list is a plain `any`. -/
lemma mapHas_assoc (cur : List CartItem) (k : String) :
    mapHas (cur.map (fun it => (it.product.id, it))) k
      = cur.any (fun it2 => it2.product.id == k) := by
  unfold mapHas
  induction cur with
  | nil => rfl
  | cons a l ih => simp only [List.map_cons, List.any_cons, ih]

/-- `mapGet` on the association list of a line list is a plain `find?`. -/
lemma mapGet_assoc (lastS : List CartItem) (k : String) :
    mapGet (lastS.map (fun it2 => (it2.product.id, it2))) k
      = lastS.find? (fun it2 => it2.product.id == k) := by
  unfold mapGet
  induction lastS with
  | nil => rfl
  | cons a l ih =>
    simp only [List.map_cons, List.find?]
    cases h : a.product.id == k with
    | true => rfl
    | false => exact ih

/-- Under unique ids on both sides, `syncCalls` is the flat diff over the
line lists themselves: removals for snapshot lines absent now, then adds and
updates walking the current lines. -/
lemma syncCalls_eq_of_nodup (lastS cur : List CartItem)
    (hL : (idsOf lastS).Nodup) (hC : (idsOf cur).Nodup) :
    syncCalls lastS cur =
      (lastS.filter (fun it =>
          !(cur.any (fun it2 => it2.product.id == it.product.id)))).map
        (fun it => SyncCall.removeC it.product.id)
      ++ cur.filterMap (addOrUpdate lastS) := by
  unfold syncCalls
  rw [mapByProductId_eq_of_nodup lastS hL, mapByProductId_eq_of_nodup cur hC]
  dsimp only
  congr 1
  · rw [List.filter_map, List.map_map]
    have hpred : ((fun e : String × CartItem => !(mapHas
          (cur.map (fun it => (it.product.id, it))) e.1))
            ∘ (fun it => (it.product.id, it)))
        = (fun it => !(cur.any (fun it2 => it2.product.id == it.product.id))) := by
      funext it
      exact congrArg (fun b => !b) (mapHas_assoc cur it.product.id)
    rw [hpred]
    rfl
  · rw [List.filterMap_map]
    congr 1
    funext it
    show (match mapGet (lastS.map (fun it2 => (it2.product.id, it2))) it.product.id with
      | none => some (SyncCall.addC it.product.id it.quantity)
      | some l0 =>
          if l0.quantity == it.quantity then none
          else some (SyncCall.updateC it.product.id it.quantity)) = addOrUpdate lastS it
    rw [mapGet_assoc lastS it.product.id]
    unfold addOrUpdate
    rfl

lemma any_id_eq_false {cur : List CartItem} {pid : String} (h : pid ∉ idsOf cur) :
    cur.any (fun it2 => it2.product.id == pid) = false := by
  rw [List.any_eq_false]
  intro x hx hbeq
  exact h (mem_idsOf.mpr ⟨x, hx, by simpa using hbeq⟩)

lemma any_id_eq_true {cur : List CartItem} {pid : String} (h : pid ∈ idsOf cur) :
    cur.any (fun it2 => it2.product.id == pid) = true := by
  rw [List.any_eq_true]
  obtain ⟨x, hx, hid⟩ := mem_idsOf.mp h
  exact ⟨x, hx, by simp [hid]⟩

/-- When the oracle accepts every call of the run, all calls are issued and
the run reports success. -/
lemma issueCalls_eq_of_all (ok : SyncCall → Bool) :
    ∀ l : List SyncCall, (∀ c ∈ l, ok c = true) → issueCalls ok l = (l, true) := by
  intro l
  induction l with
  | nil => intro _; rfl
  | cons c cs ih =>
    intro h
    unfold issueCalls
    rw [h c (List.mem_cons_self c cs), ih (fun c2 h2 => h c2 (List.mem_cons_of_mem c h2))]
    rfl

/-- Counting calls naming `pid` in the removals part. -/
lemma countA_mentions (lastS cur : List CartItem) (pid : String) :
    ((lastS.filter (fun it =>
        !(cur.any (fun it2 => it2.product.id == it.product.id)))).map
      (fun it => SyncCall.removeC it.product.id)).countP (mentions pid)
    = lastS.countP (fun it => (it.product.id == pid)
        && !(cur.any (fun it2 => it2.product.id == it.product.id))) := by
  rw [List.countP_map, List.countP_filter]
  rfl

/-- Counting the specific remove call in the removals part. -/
lemma countA_remove (lastS cur : List CartItem) (pid : String) :
    ((lastS.filter (fun it =>
        !(cur.any (fun it2 => it2.product.id == it.product.id)))).map
      (fun it => SyncCall.removeC it.product.id)).count (SyncCall.removeC pid)
    = lastS.countP (fun it => (it.product.id == pid)
        && !(cur.any (fun it2 => it2.product.id == it.product.id))) := by
  rw [List.count_eq_countP, List.countP_map, List.countP_filter]
  apply List.countP_congr
  intro x _
  show ((SyncCall.removeC x.product.id == SyncCall.removeC pid) && _) = true ↔ _
  simp [Bool.and_eq_true, beq_iff_eq]

/-- The removals part never contains an add call. -/
lemma countA_add_eq_zero (lastS cur : List CartItem) (pid : String) (q : Int) :
    ((lastS.filter (fun it =>
        !(cur.any (fun it2 => it2.product.id == it.product.id)))).map
      (fun it => SyncCall.removeC it.product.id)).count (SyncCall.addC pid q) = 0 := by
  rw [List.count_eq_countP, List.countP_map, List.countP_eq_zero]
  intro x _
  show ¬ ((SyncCall.removeC x.product.id == SyncCall.addC pid q) = true)
  simp

/-- The removals part never contains an update call. -/
lemma countA_update_eq_zero (lastS cur : List CartItem) (pid : String) (q : Int) :
    ((lastS.filter (fun it =>
        !(cur.any (fun it2 => it2.product.id == it.product.id)))).map
      (fun it => SyncCall.removeC it.product.id)).count (SyncCall.updateC pid q) = 0 := by
  rw [List.count_eq_countP, List.countP_map, List.countP_eq_zero]
  intro x _
  show ¬ ((SyncCall.removeC x.product.id == SyncCall.updateC pid q) = true)
  simp

/-- When `pid` is absent from the current items, the removal-filter conjunct
is transparent. -/
lemma countP_removefilter_of_not_mem_cur (lastS cur : List CartItem) (pid : String)
    (hout : pid ∉ idsOf cur) :
    lastS.countP (fun it => (it.product.id == pid)
        && !(cur.any (fun it2 => it2.product.id == it.product.id)))
    = lastS.countP (fun it => it.product.id == pid) := by
  apply List.countP_congr
  intro x _
  simp only [Bool.and_eq_true]
  constructor
  · rintro ⟨h1, _⟩; exact h1
  · intro h1
    refine ⟨h1, ?_⟩
    have hxid : x.product.id = pid := by simpa using h1
    rw [hxid, any_id_eq_false hout]
    rfl

/-- When `pid` is still present in the current items, no removal call for it
survives the filter. -/
lemma countP_removefilter_of_mem_cur (lastS cur : List CartItem) (pid : String)
    (hin : pid ∈ idsOf cur) :
    lastS.countP (fun it => (it.product.id == pid)
        && !(cur.any (fun it2 => it2.product.id == it.product.id))) = 0 := by
  rw [List.countP_eq_zero]
  intro x _ hcontra
  simp only [Bool.and_eq_true] at hcontra
  obtain ⟨h1, h2⟩ := hcontra
  have hxid : x.product.id = pid := by simpa using h1
  rw [hxid, any_id_eq_true hin] at h2
  cases h2

/-- When `pid` occurs in no snapshot line, neither does a removal call for
it. -/
lemma countP_removefilter_of_not_mem_last (lastS cur : List CartItem) (pid : String)
    (hout : pid ∉ idsOf lastS) :
    lastS.countP (fun it => (it.product.id == pid)
        && !(cur.any (fun it2 => it2.product.id == it.product.id))) = 0 := by
  rw [List.countP_eq_zero]
  intro x hx hcontra
  simp only [Bool.and_eq_true] at hcontra
  exact hout (mem_idsOf.mpr ⟨x, hx, by simpa using hcontra.1⟩)

/-- A current line with a different id contributes no call naming `pid`. -/
lemma addOrUpdate_mentions_of_ne (lastS : List CartItem) (x : CartItem) (pid : String)
    (hne : x.product.id ≠ pid) :
    ((addOrUpdate lastS x).map (mentions pid)).getD false = false := by
  unfold addOrUpdate
  cases lastS.find? (fun it2 => it2.product.id == x.product.id) with
  | none => simpa [mentions] using hne
  | some l0 =>
    by_cases hq : (l0.quantity == x.quantity) = true
    · simp [hq]
    · simp only [Bool.not_eq_true] at hq
      simpa [mentions, hq] using hne

/-- The add/update part never contains a remove call. -/
lemma countB_remove_eq_zero (lastS cur : List CartItem) (pid : String) :
    (cur.filterMap (addOrUpdate lastS)).count (SyncCall.removeC pid) = 0 := by
  rw [List.count_filterMap, List.countP_eq_zero]
  intro x _
  unfold addOrUpdate
  cases lastS.find? (fun it2 => it2.product.id == x.product.id) with
  | none => simp
  | some l0 =>
    by_cases hq : (l0.quantity == x.quantity) = true
    · simp [hq]
    · simp only [Bool.not_eq_true] at hq
      simp [hq]

/-- Add scenario: `pid` absent from the snapshot.  Each current line with id
`pid` contributes exactly the add call with its quantity; other lines
contribute nothing naming `pid`. -/
lemma countB_add (lastS cur : List CartItem) (pid : String)
    (hC : (idsOf cur).Nodup) (hnotin : pid ∉ idsOf lastS) :
    (cur.filterMap (addOrUpdate lastS)).count (SyncCall.addC pid (qtyOf cur pid))
      = cur.countP (fun it => it.product.id == pid) ∧
    (cur.filterMap (addOrUpdate lastS)).countP (mentions pid)
      = cur.countP (fun it => it.product.id == pid) := by
  constructor
  · rw [List.count_filterMap]
    apply List.countP_congr
    intro x hx
    by_cases hid : x.product.id = pid
    · have hfind : lastS.find? (fun it2 => it2.product.id == x.product.id) = none := by
        rw [hid]; exact find?_id_eq_none hnotin
      have hqty : qtyOf cur pid = x.quantity := qtyOf_eq_of_mem hC hx hid
      unfold addOrUpdate
      rw [hfind, hqty]
      simp [hid]
    · unfold addOrUpdate
      cases lastS.find? (fun it2 => it2.product.id == x.product.id) with
      | none => simp [hid]
      | some l0 =>
        by_cases hq : (l0.quantity == x.quantity) = true
        · simp [hq, hid]
        · simp only [Bool.not_eq_true] at hq
          simp [hq, hid]
  · rw [List.countP_filterMap]
    apply List.countP_congr
    intro x hx
    by_cases hid : x.product.id = pid
    · have hfind : lastS.find? (fun it2 => it2.product.id == x.product.id) = none := by
        rw [hid]; exact find?_id_eq_none hnotin
      unfold addOrUpdate
      rw [hfind]
      simp [mentions, hid]
    · rw [addOrUpdate_mentions_of_ne lastS x pid hid]
      simp [hid]

/-- Update scenario: `pid` in both with changed quantity.  Each current line
with id `pid` contributes exactly the update call with the current quantity;
other lines contribute nothing naming `pid`. -/
lemma countB_update (lastS cur : List CartItem) (pid : String)
    (hL : (idsOf lastS).Nodup) (hC : (idsOf cur).Nodup)
    (hinL : pid ∈ idsOf lastS) (hne : qtyOf lastS pid ≠ qtyOf cur pid) :
    (cur.filterMap (addOrUpdate lastS)).count (SyncCall.updateC pid (qtyOf cur pid))
      = cur.countP (fun it => it.product.id == pid) ∧
    (cur.filterMap (addOrUpdate lastS)).countP (mentions pid)
      = cur.countP (fun it => it.product.id == pid) := by
  obtain ⟨l0, hl0, hl0id⟩ := mem_idsOf.mp hinL
  constructor
  · rw [List.count_filterMap]
    apply List.countP_congr
    intro x hx
    by_cases hid : x.product.id = pid
    · have hfind : lastS.find? (fun it2 => it2.product.id == x.product.id) = some l0 := by
        rw [hid]; exact find?_id_eq_some hL hl0 hl0id
      have hqL : qtyOf lastS pid = l0.quantity := qtyOf_eq_of_mem hL hl0 hl0id
      have hqC : qtyOf cur pid = x.quantity := qtyOf_eq_of_mem hC hx hid
      have hqne : ¬ ((l0.quantity == x.quantity) = true) := by
        rw [beq_iff_eq]
        intro heq
        exact hne (by rw [hqL, hqC, heq])
      unfold addOrUpdate
      rw [hfind]
      simp [hqne, hqC, hid]
    · unfold addOrUpdate
      cases lastS.find? (fun it2 => it2.product.id == x.product.id) with
      | none => simp [hid]
      | some l1 =>
        by_cases hq : (l1.quantity == x.quantity) = true
        · simp [hq, hid]
        · simp only [Bool.not_eq_true] at hq
          simp [hq, hid]
  · rw [List.countP_filterMap]
    apply List.countP_congr
    intro x hx
    by_cases hid : x.product.id = pid
    · have hfind : lastS.find? (fun it2 => it2.product.id == x.product.id) = some l0 := by
        rw [hid]; exact find?_id_eq_some hL hl0 hl0id
      have hqL : qtyOf lastS pid = l0.quantity := qtyOf_eq_of_mem hL hl0 hl0id
      have hqC : qtyOf cur pid = x.quantity := qtyOf_eq_of_mem hC hx hid
      have hqne : ¬ ((l0.quantity == x.quantity) = true) := by
        rw [beq_iff_eq]
        intro heq
        exact hne (by rw [hqL, hqC, heq])
      unfold addOrUpdate
      rw [hfind]
      simp [hqne, mentions, hid]
    · rw [addOrUpdate_mentions_of_ne lastS x pid hid]
      simp [hid]

/-- Unchanged scenario: `pid` in both with equal quantity contributes no
call naming `pid`. -/
lemma countB_unchanged (lastS cur : List CartItem) (pid : String)
    (hL : (idsOf lastS).Nodup) (hC : (idsOf cur).Nodup)
    (hinL : pid ∈ idsOf lastS) (heq : qtyOf lastS pid = qtyOf cur pid) :
    (cur.filterMap (addOrUpdate lastS)).countP (mentions pid) = 0 := by
  obtain ⟨l0, hl0, hl0id⟩ := mem_idsOf.mp hinL
  rw [List.countP_filterMap, List.countP_eq_zero]
  intro x hx
  by_cases hid : x.product.id = pid
  · have hfind : lastS.find? (fun it2 => it2.product.id == x.product.id) = some l0 := by
      rw [hid]; exact find?_id_eq_some hL hl0 hl0id
    have hqL : qtyOf lastS pid = l0.quantity := qtyOf_eq_of_mem hL hl0 hl0id
    have hqC : qtyOf cur pid = x.quantity := qtyOf_eq_of_mem hC hx hid
    have hqeq : (l0.quantity == x.quantity) = true := by
      rw [beq_iff_eq, ← hqL, ← hqC, heq]
    unfold addOrUpdate
    rw [hfind]
    simp [hqeq]
  · rw [addOrUpdate_mentions_of_ne lastS x pid hid]
    simp

/-- Absent scenario: with `pid` on no current line, the add/update part
contributes no call naming `pid`. -/
lemma countB_not_mem_cur (lastS cur : List CartItem) (pid : String)
    (hout : pid ∉ idsOf cur) :
    (cur.filterMap (addOrUpdate lastS)).countP (mentions pid) = 0 := by
  rw [List.countP_filterMap, List.countP_eq_zero]
  intro x hx
  have hid : x.product.id ≠ pid := fun h => hout (mem_idsOf.mpr ⟨x, hx, h⟩)
  rw [addOrUpdate_mentions_of_ne lastS x pid hid]
  simp

/-- C4.  A reconciliation run with snapshot `lastS` and current items `cur`
(ids unique on both sides, as the cart invariant guarantees) whose calls the
backend accepts issues exactly the diff: exactly one remove call for each
product in the snapshot but not in the items, exactly one add call carrying
the current quantity for each product in the items but not in the snapshot,
exactly one update call carrying the current quantity for each product in
both whose quantity changed, and no call at all naming a product that is
unchanged or absent from both. -/
theorem syncCartToBackend_issues_exact_diff (ok : SyncCall → Bool)
    (lastS cur : List CartItem) (pid : String)
    (hL : (idsOf lastS).Nodup) (hC : (idsOf cur).Nodup)
    (hok : ∀ c ∈ syncCalls lastS cur, ok c = true) :
    (syncCartToBackend ok lastS cur).1 = syncCalls lastS cur ∧
    (pid ∈ idsOf lastS → pid ∉ idsOf cur →
      (syncCartToBackend ok lastS cur).1.count (SyncCall.removeC pid) = 1 ∧
      (syncCartToBackend ok lastS cur).1.countP (mentions pid) = 1) ∧
    (pid ∉ idsOf lastS → pid ∈ idsOf cur →
      (syncCartToBackend ok lastS cur).1.count
          (SyncCall.addC pid (qtyOf cur pid)) = 1 ∧
      (syncCartToBackend ok lastS cur).1.countP (mentions pid) = 1) ∧
    (pid ∈ idsOf lastS → pid ∈ idsOf cur → qtyOf lastS pid ≠ qtyOf cur pid →
      (syncCartToBackend ok lastS cur).1.count
          (SyncCall.updateC pid (qtyOf cur pid)) = 1 ∧
      (syncCartToBackend ok lastS cur).1.countP (mentions pid) = 1) ∧
    (pid ∈ idsOf lastS → pid ∈ idsOf cur → qtyOf lastS pid = qtyOf cur pid →
      (syncCartToBackend ok lastS cur).1.countP (mentions pid) = 0) ∧
    (pid ∉ idsOf lastS → pid ∉ idsOf cur →
      (syncCartToBackend ok lastS cur).1.countP (mentions pid) = 0) := by
  have hissued : (syncCartToBackend ok lastS cur).1 = syncCalls lastS cur := by
    unfold syncCartToBackend
    dsimp only
    rw [issueCalls_eq_of_all ok (syncCalls lastS cur) hok]
  have hsc := syncCalls_eq_of_nodup lastS cur hL hC
  refine ⟨hissued, ?_, ?_, ?_, ?_, ?_⟩
  · intro hin hout
    constructor
    · rw [hissued, hsc, List.count_append, countA_remove,
        countP_removefilter_of_not_mem_cur lastS cur pid hout,
        countP_id_one hL hin, countB_remove_eq_zero]
    · rw [hissued, hsc, List.countP_append, countA_mentions,
        countP_removefilter_of_not_mem_cur lastS cur pid hout,
        countP_id_one hL hin, countB_not_mem_cur lastS cur pid hout]
  · intro hnotin hin
    have hB := countB_add lastS cur pid hC hnotin
    constructor
    · rw [hissued, hsc, List.count_append, countA_add_eq_zero, hB.1,
        countP_id_one hC hin]
    · rw [hissued, hsc, List.countP_append, countA_mentions,
        countP_removefilter_of_not_mem_last lastS cur pid hnotin, hB.2,
        countP_id_one hC hin]
  · intro hinL hinC hne
    have hB := countB_update lastS cur pid hL hC hinL hne
    constructor
    · rw [hissued, hsc, List.count_append, countA_update_eq_zero, hB.1,
        countP_id_one hC hinC]
    · rw [hissued, hsc, List.countP_append, countA_mentions,
        countP_removefilter_of_mem_cur lastS cur pid hinC, hB.2,
        countP_id_one hC hinC]
  · intro hinL hinC heq
    rw [hissued, hsc, List.countP_append, countA_mentions,
      countP_removefilter_of_mem_cur lastS cur pid hinC,
      countB_unchanged lastS cur pid hL hC hinL heq]
  · intro hnL hnC
    rw [hissued, hsc, List.countP_append, countA_mentions,
      countP_removefilter_of_not_mem_last lastS cur pid hnL,
      countB_not_mem_cur lastS cur pid hnC]

/-- Witness for C4 on the spec's own example: snapshot `{A:1, B:2}`, items
`{A:1, C:3}` — one remove for B, one add for C with quantity 3, nothing
for A. -/
theorem syncCartToBackend_issues_exact_diff_witness :
    (syncCartToBackend (fun _ => true) [⟨prodA, 1⟩, ⟨prodB, 2⟩]
        [⟨prodA, 1⟩, ⟨prodC, 3⟩]).1.count (SyncCall.removeC "B") = 1 ∧
    (syncCartToBackend (fun _ => true) [⟨prodA, 1⟩, ⟨prodB, 2⟩]
        [⟨prodA, 1⟩, ⟨prodC, 3⟩]).1.count
      (SyncCall.addC "C" (qtyOf [⟨prodA, 1⟩, ⟨prodC, 3⟩] "C")) = 1 ∧
    (syncCartToBackend (fun _ => true) [⟨prodA, 1⟩, ⟨prodB, 2⟩]
        [⟨prodA, 1⟩, ⟨prodC, 3⟩]).1.countP (mentions "A") = 0 := by
  refine ⟨?_, ?_, ?_⟩
  · exact ((syncCartToBackend_issues_exact_diff (fun _ => true)
      [⟨prodA, 1⟩, ⟨prodB, 2⟩] [⟨prodA, 1⟩, ⟨prodC, 3⟩] "B"
      (by decide) (by decide) (by decide)).2.1 (by decide) (by decide)).1
  · exact ((syncCartToBackend_issues_exact_diff (fun _ => true)
      [⟨prodA, 1⟩, ⟨prodB, 2⟩] [⟨prodA, 1⟩, ⟨prodC, 3⟩] "C"
      (by decide) (by decide) (by decide)).2.2.1 (by decide) (by decide)).1
  · exact (syncCartToBackend_issues_exact_diff (fun _ => true)
      [⟨prodA, 1⟩, ⟨prodB, 2⟩] [⟨prodA, 1⟩, ⟨prodC, 3⟩] "A"
      (by decide) (by decide) (by decide)).2.2.2.2.1 (by decide) (by decide) (by decide)
